import Mathlib

/-!
Shallow embedding of the kruise-tools CLI code relevant to the frozen claims:

* `pkg/internal/polymorphichelpers` — `defaultObjectApprover` (rollout approve);
* `pkg/cmd/set/set_resources.go` — `SetResourcesOptions.Validate` and
  `SetResourcesOptions.Run` (the CloneSet and Advanced StatefulSet branches);
* the `exec` command file — `ExecOptions.Validate`, `StreamOptions.SetupTTY`
  and `ExecOptions.Run`.

Modelling conventions:
* Go maps (`corev1.ResourceList`, the hot-upgrade annotation map) are modelled
  as association lists with unique-key update semantics (`rlSet`): updating an
  existing key overwrites it in place, a fresh key is appended.  A nil Go map
  and an empty Go map are both the empty list; the only observable difference
  in Go (writes to a nil map abort) is guarded against by the source code
  itself, and no claim depends on it.
* Server and printer interactions are modelled by an explicit environment of
  results plus a trace of `RunAction`s recording which object each remote call
  targets.
* External library calls whose internals are not part of this repository
  (the legacy codec encoder, `HandleResourceRequirementsV1` parsing, the
  wildcard matcher inside kubectl's `selectContainers`, terminal detection)
  are abstracted as function parameters or Boolean fields; every theorem
  quantifies over them.
-/

/-! ## Association-list model of Go string maps -/

/-- Model of a Go `map[string]string` (for example `corev1.ResourceList`,
whose values are resource quantities, here kept as opaque strings). -/
abbrev ResourceList := List (String × String)

/-- Lookup in the map model: the value at the first matching key. -/
def rlGet : ResourceList → String → Option String
  | [], _ => none
  | (k, v) :: rest, key => if k = key then some v else rlGet rest key

/-- Go map assignment `m[key] = val`: overwrite the entry for `key` if it is
present, otherwise add the entry. -/
def rlSet : ResourceList → String → String → ResourceList
  | [], key, val => [(key, val)]
  | (k, v) :: rest, key, val =>
    if k = key then (key, val) :: rest else (k, v) :: rlSet rest key val

/-- Iterating Go map assignment over a list of key/value pairs, as the
`for key, value := range ... { m[key] = value }` loops do. -/
def rlSetAll (m : ResourceList) (pairs : ResourceList) : ResourceList :=
  pairs.foldl (fun acc kv => rlSet acc kv.1 kv.2) m

theorem rlGet_rlSet_self (m : ResourceList) (k v : String) :
    rlGet (rlSet m k v) k = some v := by
  induction m with
  | nil => simp [rlSet, rlGet]
  | cons hd tl ih =>
    obtain ⟨a, b⟩ := hd
    by_cases h : a = k
    · simp [rlSet, h, rlGet]
    · simp [rlSet, h, rlGet, ih]

theorem rlGet_rlSet_ne (m : ResourceList) (k v : String) (k' : String)
    (h : k' ≠ k) : rlGet (rlSet m k v) k' = rlGet m k' := by
  have h' : k ≠ k' := Ne.symm h
  induction m with
  | nil => simp [rlSet, rlGet, h']
  | cons hd tl ih =>
    obtain ⟨a, b⟩ := hd
    by_cases ha : a = k
    · subst ha
      simp [rlSet, rlGet, h']
    · simp [rlSet, ha, rlGet, ih]

theorem rlGet_rlSetAll_not_mem (m : ResourceList) (pairs : ResourceList)
    (k : String) (h : k ∉ pairs.map Prod.fst) :
    rlGet (rlSetAll m pairs) k = rlGet m k := by
  induction pairs generalizing m with
  | nil => simp [rlSetAll]
  | cons hd tl ih =>
    simp only [List.map_cons, List.mem_cons] at h
    push_neg at h
    have := ih (rlSet m hd.1 hd.2) h.2
    simp only [rlSetAll, List.foldl_cons] at this ⊢
    rw [this, rlGet_rlSet_ne _ _ _ _ h.1]

theorem rlGet_rlSetAll_mem (m : ResourceList) (pairs : ResourceList)
    (k v : String) (hmem : (k, v) ∈ pairs)
    (hnodup : (pairs.map Prod.fst).Nodup) :
    rlGet (rlSetAll m pairs) k = some v := by
  induction pairs generalizing m with
  | nil => simp at hmem
  | cons hd tl ih =>
    simp only [List.map_cons, List.nodup_cons] at hnodup
    rcases List.mem_cons.mp hmem with heq | htl
    · subst heq
      have hk : k ∉ tl.map Prod.fst := by
        simpa using hnodup.1
      simp only [rlSetAll, List.foldl_cons]
      have := rlGet_rlSetAll_not_mem (rlSet m k v) tl k hk
      simp only [rlSetAll] at this
      rw [this, rlGet_rlSet_self]
    · simp only [rlSetAll, List.foldl_cons]
      exact ih _ htl hnodup.2

/-! ## Rollout approve: `defaultObjectApprover` -/

/-- Constant `CanaryStepStatePaused` of the kruise rollouts API (external
library `github.com/openkruise/rollouts/api/v1alpha1`). -/
def CanaryStepStatePaused : String := "StepPaused"

/-- Constant `CanaryStepStateCompleted` of the kruise rollouts API. -/
def CanaryStepStateCompleted : String := "StepCompleted"

/-- The part of `RolloutStatus.CanaryStatus` the approver touches; `rest`
stands for every other field of the canary status. -/
structure CanaryStatus where
  currentStepState : String
  rest : String
  deriving DecidableEq

/-- The part of `Rollout.Status` the approver touches; `rest` stands for
every other status field. -/
structure RolloutStatus where
  canaryStatus : Option CanaryStatus
  rest : String
  deriving DecidableEq

/-- A kruise `Rollout` object; `rest` stands for metadata and spec. -/
structure Rollout where
  name : String
  status : RolloutStatus
  rest : String
  deriving DecidableEq

/-- A `runtime.Object` as seen by the approver's type switch: either a
`*Rollout` or a value of any other type (identified only by its kind). -/
inductive RuntimeObj where
  | rollout (r : Rollout)
  | otherKind (kind : String)
  deriving DecidableEq

/-- Embedding of `defaultObjectApprover` from the polymorphic-helpers file.
`encode` abstracts `runtime.Encode(scheme.Codecs.LegacyCodec(...), obj)`,
an external codec modelled as a total function to a byte list. -/
def defaultObjectApprover (encode : Rollout → List Nat) :
    RuntimeObj → Except String (List Nat)
  | .rollout obj =>
    match obj.status.canaryStatus with
    | none =>
      .error "does not allow to approve, because current canary state is not \x27StepInPaused\x27"
    | some cs =>
      if cs.currentStepState ≠ CanaryStepStatePaused then
        .error "does not allow to approve, because current canary state is not \x27StepInPaused\x27"
      else
        .ok (encode { obj with
          status := { obj.status with
            canaryStatus := some { cs with
              currentStepState := CanaryStepStateCompleted } } })
  | .otherKind _ => .error "approving is not supported"

/-! ## `set resources`: data model -/

/-- A `corev1.ResourceRequirements` value: limits and requests maps. -/
structure ResourceRequirements where
  limits : ResourceList
  requests : ResourceList
  deriving DecidableEq

/-- A `corev1.Container` restricted to what `set resources` reads or writes:
its name, its `Resources` field, and `rest` standing for every other
container field (image, env, ports, ...). -/
structure Container where
  name : String
  resources : ResourceRequirements
  rest : String
  deriving DecidableEq

/-- A `corev1.PodSpec`: the container list plus `otherFields` standing for
every non-container pod-spec field (volumes, node selector, ...). -/
structure PodSpec where
  containers : List Container
  otherFields : String
  deriving DecidableEq

/-- A `corev1.PodTemplateSpec`: template labels plus the pod spec. -/
structure PodTemplateSpec where
  metadataLabels : ResourceList
  spec : PodSpec
  deriving DecidableEq

/-- A kruise `appsv1alpha1.CloneSet`, restricted to the fields the claims
talk about: name, labels, replicas, the pod template, and an opaque status. -/
structure CloneSet where
  name : String
  labels : ResourceList
  replicas : Option Int
  template : PodTemplateSpec
  status : String
  deriving DecidableEq

/-- A kruise `appsv1beta1.StatefulSet` (Advanced StatefulSet), same
restriction as `CloneSet`. -/
structure AdvancedStatefulSet where
  name : String
  labels : ResourceList
  replicas : Option Int
  template : PodTemplateSpec
  status : String
  deriving DecidableEq

/-- The `cmdutil.DryRunStrategy` constants used by this code. -/
inductive DryRunStrategy where
  | none
  | client
  | server
  deriving DecidableEq

/-- The fields of `SetResourcesOptions` that `Validate` and the modelled
branches of `Run` read or write.  `Output`, print flags and the recorder are
omitted: no claim mentions them. -/
structure SetResourcesOptions where
  selector : String
  containerSelector : String
  all : Bool
  local_ : Bool
  dryRunStrategy : DryRunStrategy
  limits : String
  requests : String
  resourceRequirements : ResourceRequirements
  deriving DecidableEq

/-! ## `set resources`: Validate -/

/-- Embedding of `SetResourcesOptions.Validate`.  `handleResourceRequirementsV1`
abstracts the external kubectl parser `generateversioned.HandleResourceRequirementsV1`
applied to the map with entries for "limits" and "requests"; it receives the
two flag strings.  On success Go stores the parsed value into
`o.ResourceRequirements`; the model returns the updated options. -/
def SetResourcesOptions.Validate (o : SetResourcesOptions)
    (handleResourceRequirementsV1 : String → String → Except String ResourceRequirements) :
    Except String SetResourcesOptions :=
  if o.local_ ∧ o.dryRunStrategy = DryRunStrategy.server then
    .error "cannot specify --local and --dry-run=server - did you mean --dry-run=client?"
  else if o.all ∧ o.selector.length > 0 then
    .error "cannot set --all and --selector at the same time"
  else if o.limits.length = 0 ∧ o.requests.length = 0 then
    .error "you must specify an update to requests or limits (in the form of --requests/--limits)"
  else
    match handleResourceRequirementsV1 o.limits o.requests with
    | .error e => .error e
    | .ok rr => .ok { o with resourceRequirements := rr }

/-! ## `set resources`: the in-memory mutation of Run -/

/-- Embedding of kubectl's `selectContainers` (helper code of the `set`
package that is not among the provided sources): it returns the containers
of the list whose name matches the wildcard container selector, in order.
The wildcard matcher itself is abstracted as the predicate `matchFn`. -/
def selectContainers (matchFn : String → Bool) (containers : List Container) :
    List Container :=
  containers.filter (fun c => matchFn c.name)

/-- The body of the per-container loop in `Run`: allocate empty maps where
the Go code does (`make(corev1.ResourceList)` when the flag was given and
the map is empty — the identity in the association-list model), then write
every parsed limits pair and every parsed requests pair into the container's
`Resources`. -/
def updateContainerResources (o : SetResourcesOptions) (c : Container) : Container :=
  let limits0 :=
    if o.limits.length ≠ 0 ∧ c.resources.limits.length = 0 then ([] : ResourceList)
    else c.resources.limits
  let requests0 :=
    if o.requests.length ≠ 0 ∧ c.resources.requests.length = 0 then ([] : ResourceList)
    else c.resources.requests
  { c with resources :=
      { limits := rlSetAll limits0 o.resourceRequirements.limits
        requests := rlSetAll requests0 o.resourceRequirements.requests } }

/-- The aggregate effect of the loop `for i := range containers` in `Run` on
the full container list: the loop mutates, through pointers returned by
`selectContainers`, exactly the containers whose name matches the selector,
leaving the others and the list order untouched. -/
def applyResourcesToContainers (o : SetResourcesOptions)
    (matchFn : String → Bool) (containers : List Container) : List Container :=
  containers.map (fun c => if matchFn c.name then updateContainerResources o c else c)

/-- The in-memory mutation of the fetched CloneSet performed by the CloneSet
branch of `Run`: only `Spec.Template.Spec.Containers` is touched. -/
def mutateCloneSet (o : SetResourcesOptions) (matchFn : String → Bool)
    (res : CloneSet) : CloneSet :=
  { res with template :=
      { res.template with spec :=
          { res.template.spec with
            containers := applyResourcesToContainers o matchFn res.template.spec.containers } } }

/-- The in-memory mutation of the fetched Advanced StatefulSet performed by
the StatefulSet branch of `Run`. -/
def mutateAdvancedStatefulSet (o : SetResourcesOptions) (matchFn : String → Bool)
    (res : AdvancedStatefulSet) : AdvancedStatefulSet :=
  { res with template :=
      { res.template with spec :=
          { res.template.spec with
            containers := applyResourcesToContainers o matchFn res.template.spec.containers } } }

/-! ## `set resources`: Run as a trace of remote calls -/

/-- An `o.Infos[i].Object` as seen by the type switch in `Run`: a CloneSet, a
kruise Advanced StatefulSet, or any other object type (handled by the
default patch branch, which is driven by external kubectl machinery). -/
inductive ObjKind where
  | cloneSet (c : CloneSet)
  | advancedStatefulSet (s : AdvancedStatefulSet)
  | otherKind (kind : String)

/-- A `resource.Info`: the coordinates and object of one resolved target. -/
structure Info where
  ns : String
  name : String
  object : ObjKind

/-- A workload object sent to the server or the printer. -/
inductive WorkloadObj where
  | clone (c : CloneSet)
  | asts (s : AdvancedStatefulSet)
  deriving DecidableEq

/-- One remote or printer interaction of `Run`, tagged with the namespace and
name of the object it targets; `replace` and `print` also carry the object
that is sent or printed. -/
inductive RunAction where
  | get (ns name : String)
  | replace (ns name : String) (obj : WorkloadObj)
  | print (ns name : String) (obj : WorkloadObj)
  deriving DecidableEq

/-- Environment of results for the calls `Run` makes: the `Helper.Get` result
for the first info (typed by branch), the `Helper.Replace` outcome, the
`PrintObj` outcome, and the whole outcome of the default patch branch (that
branch is external `CalculatePatches`/patch machinery over all infos and is
not the subject of any claim). -/
structure SetEnv where
  getCloneSet : Except String CloneSet
  getAdvancedStatefulSet : Except String AdvancedStatefulSet
  replaceResult : Except String Unit
  printResult : Except String Unit
  defaultBranch : Except String Unit × List RunAction

/-- The CloneSet branch of `Run`, as a result plus the trace of calls.
`Recorder.Record` is in-memory (its error is only logged) and
`meta.NewAccessor().Name` cannot fail on a typed object carrying object
meta, so neither appears in the trace.  When no container matches, the
accumulated "unable to find container" error is dropped by the
`if !transformed` early return, exactly as in the source. -/
def cloneSetBranch (o : SetResourcesOptions) (matchFn : String → Bool)
    (env : SetEnv) (info : Info) : Except String Unit × List RunAction :=
  match env.getCloneSet with
  | .error e => (.error e, [.get info.ns info.name])
  | .ok res =>
    let containers := selectContainers matchFn res.template.spec.containers
    let transformed := containers.length ≠ 0
    if ¬transformed then
      (.ok (), [.get info.ns info.name])
    else
      let res2 := WorkloadObj.clone (mutateCloneSet o matchFn res)
      if ¬o.local_ then
        match env.replaceResult with
        | .error e =>
          (.error e, [.get info.ns info.name, .replace info.ns info.name res2])
        | .ok _ =>
          match env.printResult with
          | .error e =>
            (.error e,
              [.get info.ns info.name, .replace info.ns info.name res2,
                .print info.ns info.name res2])
          | .ok _ =>
            (.ok (),
              [.get info.ns info.name, .replace info.ns info.name res2,
                .print info.ns info.name res2])
      else
        match env.printResult with
        | .error e => (.error e, [.get info.ns info.name, .print info.ns info.name res2])
        | .ok _ => (.ok (), [.get info.ns info.name, .print info.ns info.name res2])

/-- The Advanced StatefulSet branch of `Run`; the source duplicates the
CloneSet branch verbatim apart from the object type. -/
def advancedStatefulSetBranch (o : SetResourcesOptions) (matchFn : String → Bool)
    (env : SetEnv) (info : Info) : Except String Unit × List RunAction :=
  match env.getAdvancedStatefulSet with
  | .error e => (.error e, [.get info.ns info.name])
  | .ok res =>
    let containers := selectContainers matchFn res.template.spec.containers
    let transformed := containers.length ≠ 0
    if ¬transformed then
      (.ok (), [.get info.ns info.name])
    else
      let res2 := WorkloadObj.asts (mutateAdvancedStatefulSet o matchFn res)
      if ¬o.local_ then
        match env.replaceResult with
        | .error e =>
          (.error e, [.get info.ns info.name, .replace info.ns info.name res2])
        | .ok _ =>
          match env.printResult with
          | .error e =>
            (.error e,
              [.get info.ns info.name, .replace info.ns info.name res2,
                .print info.ns info.name res2])
          | .ok _ =>
            (.ok (),
              [.get info.ns info.name, .replace info.ns info.name res2,
                .print info.ns info.name res2])
      else
        match env.printResult with
        | .error e => (.error e, [.get info.ns info.name, .print info.ns info.name res2])
        | .ok _ => (.ok (), [.get info.ns info.name, .print info.ns info.name res2])

/-- Embedding of `SetResourcesOptions.Run`: empty target list returns nil at
once; otherwise the type of the FIRST resolved object selects the branch.
The CloneSet and StatefulSet branches only ever touch `o.Infos[0]`. -/
def SetResourcesOptions.Run (o : SetResourcesOptions) (matchFn : String → Bool)
    (env : SetEnv) (infos : List Info) : Except String Unit × List RunAction :=
  match infos with
  | [] => (.ok (), [])
  | info :: _ =>
    match info.object with
    | .cloneSet _ => cloneSetBranch o matchFn env info
    | .advancedStatefulSet _ => advancedStatefulSetBranch o matchFn env info
    | .otherKind _ => env.defaultBranch

/-! ## `exec`: data model -/

/-- The `corev1.PodSucceeded` phase constant. -/
def PodSucceeded : String := "Succeeded"

/-- The `corev1.PodFailed` phase constant. -/
def PodFailed : String := "Failed"

/-- A `corev1.Pod` restricted to what the `exec` command reads.
`hotUpgradeInfos` is the result of the kruise utility
`util.GetPodHotUpgradeInfoInAnnotations(pod)` (external to the provided
sources): the map, decoded from the pod's hot-upgrade annotation, from
sidecar container name to its current working container. -/
structure Pod where
  name : String
  ns : String
  containers : List Container
  hotUpgradeInfos : ResourceList
  phase : String
  deriving DecidableEq

/-- The fields of `StreamOptions` that `SetupTTY` and `Run` read or write.
Streams are modelled as `Option String` handles (`none` is a nil stream);
`isTerminalIn` abstracts the terminal check `o.isTerminalIn(t)`, and
`overrideIn`/`overrideOut` are the handles `dockerterm.StdStreams()` would
hand back. -/
structure StreamOptions where
  podName : String
  containerName : String
  sidecarSetContainer : String
  stdin : Bool
  tty : Bool
  inStream : Option String
  out : Option String
  errOut : Option String
  isTerminalIn : Bool
  overrideIn : String
  overrideOut : String
  deriving DecidableEq

/-- The `term.TTY` value `SetupTTY` builds (`Parent` omitted: no claim). -/
structure TTY where
  raw : Bool
  inStream : Option String
  out : Option String
  deriving DecidableEq

/-- The fields of `ExecOptions` the claims mention, over the embedded
`StreamOptions`. -/
structure ExecOptions extends StreamOptions where
  resourceName : String
  filenames : List String
  command : List String
  deriving DecidableEq

/-! ## `exec`: Validate -/

/-- Embedding of `ExecOptions.Validate`. -/
def ExecOptions.Validate (p : ExecOptions) : Except String Unit :=
  if p.podName.length = 0 ∧ p.resourceName.length = 0 ∧ p.filenames.length = 0 then
    .error "pod, type/name or --filename must be specified"
  else if p.command.length = 0 then
    .error "you must specify at least one command for the container"
  else if p.out = none ∨ p.errOut = none then
    .error "both output and error output must be provided"
  else
    .ok ()

/-! ## `exec`: SetupTTY -/

/-- Embedding of `StreamOptions.SetupTTY`: returns the built `term.TTY`
together with the updated options (the Go method mutates the receiver).
The warning printed when the input is not a terminal is an output-only
side effect and is not part of the state. -/
def StreamOptions.SetupTTY (o : StreamOptions) : TTY × StreamOptions :=
  let t : TTY := { raw := false, inStream := none, out := o.out }
  if !o.stdin then
    (t, { o with inStream := none, tty := false })
  else
    let t := { t with inStream := o.inStream }
    if !o.tty then
      (t, o)
    else if !o.isTerminalIn then
      (t, { o with tty := false })
    else
      let o2 := { o with inStream := some o.overrideIn }
      let t := { t with raw := true, inStream := some o.overrideIn }
      if o2.out.isSome then
        ({ t with out := some o.overrideOut }, { o2 with out := some o.overrideOut })
      else
        (t, o2)

/-! ## `exec`: Run -/

/-- Container-name selection in `ExecOptions.Run`: the hot-upgrade working
container if the map has an entry for the `-S` name, else the `-c` name;
if the chosen name is empty, the first container of the pod.  The result is
`none` exactly when the fallback indexes `pod.Spec.Containers[0]` on an
empty container list, which in Go is a runtime abort. -/
def chooseContainerName (p : ExecOptions) (pod : Pod) : Option String :=
  let containerName :=
    match rlGet pod.hotUpgradeInfos p.sidecarSetContainer with
    | some workingContainer => workingContainer
    | none => p.containerName
  if containerName.length = 0 then
    (pod.containers.head?).map Container.name
  else
    some containerName

/-- The exec API request and executor invocation `Run` builds once the
container name is chosen: `PodExecOptions` fields plus the streams handed to
the remote executor and whether a terminal-size-monitoring queue was
created.  An `ExecCall` value means the remote executor was invoked with
these parameters; its own outcome belongs to the external library. -/
structure ExecCall where
  container : String
  command : List String
  stdinStream : Option String
  stdoutStream : Option String
  errOutStream : Option String
  stdin : Bool
  stdout : Bool
  stderr : Bool
  tty : Bool
  hasSizeQueue : Bool
  deriving DecidableEq

/-- Construction of the executor invocation in `Run`: `SetupTTY` first, then
when the terminal is raw a size queue is created and `p.ErrOut` is set to
nil, and the request carries `Stdout: p.Out != nil`, `Stderr: p.ErrOut != nil`
and `TTY: t.Raw`. -/
def buildExecCall (p : ExecOptions) (containerName : String) : ExecCall :=
  let tp := p.toStreamOptions.SetupTTY
  let errOut2 := if tp.1.raw then none else tp.2.errOut
  { container := containerName
    command := p.command
    stdinStream := tp.2.inStream
    stdoutStream := tp.2.out
    errOutStream := errOut2
    stdin := p.stdin
    stdout := tp.2.out.isSome
    stderr := errOut2.isSome
    tty := tp.1.raw
    hasSizeQueue := tp.1.raw }

/-- The part of `ExecOptions.Run` after the completed-pod check: choose the
container name, set up the TTY and invoke the executor. -/
def ExecOptions.runAfterPhaseCheck (p : ExecOptions) (pod : Pod) :
    Except String ExecCall :=
  match chooseContainerName p pod with
  | none => .error "runtime error: index out of range"
  | some containerName => .ok (buildExecCall p containerName)

/-- Embedding of `ExecOptions.Run` from the point where the target pod has
been resolved (the pod fetch itself goes through the external pod client or
resource builder).  A `.error` result means the remote executor is never
invoked. -/
def ExecOptions.Run (p : ExecOptions) (pod : Pod) : Except String ExecCall :=
  if pod.phase = PodSucceeded ∨ pod.phase = PodFailed then
    .error ("cannot exec into a container in a completed pod; current phase is " ++ pod.phase)
  else
    p.runAfterPhaseCheck pod

/-! ## Helper lemmas -/

theorem string_length_eq_zero (s : String) : s.length = 0 ↔ s = "" := by
  constructor
  · intro h
    apply String.ext
    have h2 : s.data.length = 0 := h
    simpa using List.length_eq_zero.mp h2
  · intro h
    subst h
    rfl

/-! ## Claims -/

/-- C1: for every runtime object given to `defaultObjectApprover`: a Rollout
with non-nil canary status in step state `CanaryStepStatePaused` has its
step state set to `CanaryStepStateCompleted` and the encoded object is
returned with nil error; a Rollout with nil canary status or any other step
state yields nil bytes and the not-paused error; any other object type
yields nil bytes and the not-supported error.  The four conjuncts cover
every constructor of `RuntimeObj` and every shape of the canary status, so
no other outcome is possible. -/
theorem claim_C1 (encode : Rollout → List Nat) (r : Rollout) (kind : String) :
    (∀ cs, r.status.canaryStatus = some cs →
      cs.currentStepState = CanaryStepStatePaused →
      defaultObjectApprover encode (.rollout r) =
        .ok (encode { r with
              status := { r.status with
                canaryStatus := some { cs with
                  currentStepState := CanaryStepStateCompleted } } })) ∧
    (r.status.canaryStatus = none →
      defaultObjectApprover encode (.rollout r) =
        .error "does not allow to approve, because current canary state is not \x27StepInPaused\x27") ∧
    (∀ cs, r.status.canaryStatus = some cs →
      cs.currentStepState ≠ CanaryStepStatePaused →
      defaultObjectApprover encode (.rollout r) =
        .error "does not allow to approve, because current canary state is not \x27StepInPaused\x27") ∧
    defaultObjectApprover encode (.otherKind kind) = .error "approving is not supported" := by
  refine ⟨?_, ?_, ?_, rfl⟩
  · intro cs hcs hstate
    simp [defaultObjectApprover, hcs, hstate]
  · intro hnone
    simp [defaultObjectApprover, hnone]
  · intro cs hcs hne
    simp [defaultObjectApprover, hcs, hne]

theorem claim_C1_witness :
    defaultObjectApprover (fun _ => [7])
      (.rollout ⟨"r", ⟨some ⟨CanaryStepStatePaused, "cs"⟩, "st"⟩, "sp"⟩) = .ok [7] ∧
    defaultObjectApprover (fun _ => [7]) (.rollout ⟨"r", ⟨none, "st"⟩, "sp"⟩) =
      .error "does not allow to approve, because current canary state is not \x27StepInPaused\x27" ∧
    defaultObjectApprover (fun _ => [7]) (.otherKind "Deployment") =
      .error "approving is not supported" :=
  ⟨(claim_C1 (fun _ => [7]) ⟨"r", ⟨some ⟨CanaryStepStatePaused, "cs"⟩, "st"⟩, "sp"⟩ "k").1
      ⟨CanaryStepStatePaused, "cs"⟩ rfl rfl,
   (claim_C1 (fun _ => [7]) ⟨"r", ⟨none, "st"⟩, "sp"⟩ "k").2.1 rfl,
   (claim_C1 (fun _ => [7]) ⟨"r", ⟨none, "st"⟩, "sp"⟩ "Deployment").2.2.2⟩

/-- C3: `Validate` of `set resources` returns an error exactly when `--local`
is combined with `--dry-run=server`, or `--all` with a non-empty
`--selector`, or both `--limits` and `--requests` are empty, or the flag
strings fail to parse; otherwise it returns the options with the parsed
requirements stored in `ResourceRequirements`. -/
theorem claim_C3 (o : SetResourcesOptions)
    (handleResourceRequirementsV1 : String → String → Except String ResourceRequirements) :
    ((∃ e, o.Validate handleResourceRequirementsV1 = .error e) ↔
      ((o.local_ ∧ o.dryRunStrategy = DryRunStrategy.server) ∨
       (o.all ∧ o.selector ≠ "") ∨
       (o.limits = "" ∧ o.requests = "") ∨
       (∃ e, handleResourceRequirementsV1 o.limits o.requests = .error e))) ∧
    (∀ rr, ¬(o.local_ ∧ o.dryRunStrategy = DryRunStrategy.server) →
      ¬(o.all ∧ o.selector ≠ "") →
      ¬(o.limits = "" ∧ o.requests = "") →
      handleResourceRequirementsV1 o.limits o.requests = .ok rr →
      o.Validate handleResourceRequirementsV1 = .ok { o with resourceRequirements := rr }) := by
  have hsel : (o.all ∧ o.selector.length > 0) ↔ (o.all ∧ o.selector ≠ "") := by
    constructor
    · rintro ⟨ha, hl⟩
      refine ⟨ha, fun he => ?_⟩
      rw [he] at hl
      simp at hl
    · rintro ⟨ha, hne⟩
      refine ⟨ha, ?_⟩
      rcases Nat.eq_zero_or_pos o.selector.length with h | h
      · exact absurd ((string_length_eq_zero o.selector).mp h) hne
      · exact h
  have hempty : (o.limits.length = 0 ∧ o.requests.length = 0) ↔
      (o.limits = "" ∧ o.requests = "") := by
    rw [string_length_eq_zero, string_length_eq_zero]
  constructor
  · unfold SetResourcesOptions.Validate
    split_ifs with h1 h2 h3
    · constructor
      · intro _
        exact Or.inl h1
      · intro _
        exact ⟨_, rfl⟩
    · constructor
      · intro _
        exact Or.inr (Or.inl (hsel.mp h2))
      · intro _
        exact ⟨_, rfl⟩
    · constructor
      · intro _
        exact Or.inr (Or.inr (Or.inl (hempty.mp h3)))
      · intro _
        exact ⟨_, rfl⟩
    · cases hp : handleResourceRequirementsV1 o.limits o.requests with
      | error e =>
        constructor
        · intro _
          exact Or.inr (Or.inr (Or.inr ⟨e, rfl⟩))
        · intro _
          exact ⟨e, rfl⟩
      | ok rr =>
        constructor
        · rintro ⟨e, he⟩
          simp at he
        · rintro (hc1 | hc2 | hc3 | ⟨e, he⟩)
          · exact absurd hc1 h1
          · exact absurd (hsel.mpr hc2) h2
          · exact absurd (hempty.mpr hc3) h3
          · simp at he
  · intro rr h1 h2 h3 hp
    unfold SetResourcesOptions.Validate
    rw [if_neg h1, if_neg (fun hc => h2 (hsel.mp hc)), if_neg (fun hc => h3 (hempty.mp hc)), hp]

theorem claim_C3_witness :
    SetResourcesOptions.Validate
      { selector := "", containerSelector := "*", all := false, local_ := false,
        dryRunStrategy := DryRunStrategy.none, limits := "cpu=200m", requests := "",
        resourceRequirements := ⟨[], []⟩ }
      (fun _ _ => .ok ⟨[("cpu", "200m")], []⟩) =
      .ok { selector := "", containerSelector := "*", all := false, local_ := false,
            dryRunStrategy := DryRunStrategy.none, limits := "cpu=200m", requests := "",
            resourceRequirements := ⟨[("cpu", "200m")], []⟩ } :=
  (claim_C3 _ _).2 _ (by decide) (by decide) (by decide) rfl

/-- C7: `Validate` of `exec` returns an error exactly when pod name, resource
name and the filename list are all empty, or the command list is empty, or
one of the output streams is nil; otherwise it returns nil. -/
theorem claim_C7 (p : ExecOptions) :
    ((∃ e, p.Validate = .error e) ↔
      ((p.podName = "" ∧ p.resourceName = "" ∧ p.filenames = []) ∨
       p.command = [] ∨ p.out = none ∨ p.errOut = none)) ∧
    (p.Validate = .ok () ↔
      ¬((p.podName = "" ∧ p.resourceName = "" ∧ p.filenames = []) ∨
        p.command = [] ∨ p.out = none ∨ p.errOut = none)) := by
  have h1 : (p.podName.length = 0 ∧ p.resourceName.length = 0 ∧ p.filenames.length = 0) ↔
      (p.podName = "" ∧ p.resourceName = "" ∧ p.filenames = []) := by
    rw [string_length_eq_zero, string_length_eq_zero, List.length_eq_zero]
  have h2 : (p.command.length = 0) ↔ p.command = [] := List.length_eq_zero
  unfold ExecOptions.Validate
  split_ifs with hc1 hc2 hc3
  · constructor
    · constructor
      · intro _
        exact Or.inl (h1.mp hc1)
      · intro _
        exact ⟨_, rfl⟩
    · constructor
      · intro h
        simp at h
      · intro h
        exact absurd (Or.inl (h1.mp hc1)) h
  · constructor
    · constructor
      · intro _
        exact Or.inr (Or.inl (h2.mp hc2))
      · intro _
        exact ⟨_, rfl⟩
    · constructor
      · intro h
        simp at h
      · intro h
        exact absurd (Or.inr (Or.inl (h2.mp hc2))) h
  · constructor
    · constructor
      · intro _
        exact Or.inr (Or.inr hc3)
      · intro _
        exact ⟨_, rfl⟩
    · constructor
      · intro h
        simp at h
      · intro h
        exact absurd (Or.inr (Or.inr hc3)) h
  · constructor
    · constructor
      · rintro ⟨e, he⟩
        simp at he
      · rintro (hd | hd | hd)
        · exact absurd (h1.mpr hd) hc1
        · exact absurd (h2.mpr hd) hc2
        · exact absurd hd hc3
    · constructor
      · intro _
        rintro (hd | hd | hd)
        · exact absurd (h1.mpr hd) hc1
        · exact absurd (h2.mpr hd) hc2
        · exact absurd hd hc3
      · intro _
        rfl

theorem resourceList_alloc_eq (s : String) (m : ResourceList) :
    (if s.length ≠ 0 ∧ m.length = 0 then ([] : ResourceList) else m) = m := by
  split
  · next h => exact (List.length_eq_zero.mp h.2).symm
  · rfl

theorem updateContainerResources_eq (o : SetResourcesOptions) (c : Container) :
    updateContainerResources o c =
      { c with resources :=
          { limits := rlSetAll c.resources.limits o.resourceRequirements.limits
            requests := rlSetAll c.resources.requests o.resourceRequirements.requests } } := by
  simp only [updateContainerResources]
  rw [resourceList_alloc_eq, resourceList_alloc_eq]

theorem applyResourcesToContainers_getElem? (o : SetResourcesOptions)
    (matchFn : String → Bool) (cs : List Container) (i : Nat) (c : Container)
    (hc : cs[i]? = some c) :
    (applyResourcesToContainers o matchFn cs)[i]? =
      some (if matchFn c.name then updateContainerResources o c else c) := by
  unfold applyResourcesToContainers
  rw [List.getElem?_map, hc]
  rfl

/-- C2: for a CloneSet or kruise StatefulSet target, `Run` writes each parsed
`--limits` pair into the `Resources.Limits` of every container matched by the
container selector and each parsed `--requests` pair into
`Resources.Requests` (first allocating an empty map where the Go code does,
a no-op in the map model), while resource keys not named in the flags keep
their previous values.  Stated on `applyResourcesToContainers`, the shared
in-memory mutation the CloneSet and Advanced StatefulSet branches perform
on the fetched pod template (see `mutateCloneSet` and
`mutateAdvancedStatefulSet`). -/
theorem claim_C2 (o : SetResourcesOptions) (matchFn : String → Bool)
    (cs : List Container) (i : Nat) (c : Container)
    (hc : cs[i]? = some c) (hm : matchFn c.name = true)
    (hL : (o.resourceRequirements.limits.map Prod.fst).Nodup)
    (hR : (o.resourceRequirements.requests.map Prod.fst).Nodup) :
    ∃ c2, (applyResourcesToContainers o matchFn cs)[i]? = some c2 ∧
      (∀ k v, (k, v) ∈ o.resourceRequirements.limits →
        rlGet c2.resources.limits k = some v) ∧
      (∀ k, k ∉ o.resourceRequirements.limits.map Prod.fst →
        rlGet c2.resources.limits k = rlGet c.resources.limits k) ∧
      (∀ k v, (k, v) ∈ o.resourceRequirements.requests →
        rlGet c2.resources.requests k = some v) ∧
      (∀ k, k ∉ o.resourceRequirements.requests.map Prod.fst →
        rlGet c2.resources.requests k = rlGet c.resources.requests k) := by
  refine ⟨updateContainerResources o c, ?_, ?_, ?_, ?_, ?_⟩
  · rw [applyResourcesToContainers_getElem? o matchFn cs i c hc]
    simp [hm]
  · intro k v hmem
    rw [updateContainerResources_eq]
    exact rlGet_rlSetAll_mem _ _ _ _ hmem hL
  · intro k hk
    rw [updateContainerResources_eq]
    exact rlGet_rlSetAll_not_mem _ _ _ hk
  · intro k v hmem
    rw [updateContainerResources_eq]
    exact rlGet_rlSetAll_mem _ _ _ _ hmem hR
  · intro k hk
    rw [updateContainerResources_eq]
    exact rlGet_rlSetAll_not_mem _ _ _ hk

theorem claim_C2_witness :
    ∃ c2, (applyResourcesToContainers
        { selector := "", containerSelector := "*", all := false, local_ := false,
          dryRunStrategy := DryRunStrategy.none, limits := "cpu=200m,memory=512Mi",
          requests := "cpu=100m",
          resourceRequirements :=
            ⟨[("cpu", "200m"), ("memory", "512Mi")], [("cpu", "100m")]⟩ }
        (fun _ => true) [⟨"nginx", ⟨[("cpu", "1")], []⟩, "img"⟩])[0]? = some c2 ∧
      (∀ k v, (k, v) ∈ ([("cpu", "200m"), ("memory", "512Mi")] : ResourceList) →
        rlGet c2.resources.limits k = some v) ∧
      (∀ k, k ∉ (([("cpu", "200m"), ("memory", "512Mi")] : ResourceList)).map Prod.fst →
        rlGet c2.resources.limits k = rlGet [("cpu", "1")] k) ∧
      (∀ k v, (k, v) ∈ ([("cpu", "100m")] : ResourceList) →
        rlGet c2.resources.requests k = some v) ∧
      (∀ k, k ∉ (([("cpu", "100m")] : ResourceList)).map Prod.fst →
        rlGet c2.resources.requests k = rlGet ([] : ResourceList) k) :=
  claim_C2 _ (fun _ => true) _ 0 ⟨"nginx", ⟨[("cpu", "1")], []⟩, "img"⟩ rfl rfl
    (by decide) (by decide)

/-- C6: the in-memory mutation `Run` performs in the CloneSet and Advanced
StatefulSet branches modifies only the `Resources` field of containers
matched by the container selector: unmatched containers are returned
unchanged, matched containers keep their name and every other field, the
container list keeps its length and order, and every other field of the
fetched object (name, labels, replicas, status, template labels,
non-container pod-spec fields) is unchanged. -/
theorem claim_C6 (o : SetResourcesOptions) (matchFn : String → Bool)
    (res : CloneSet) (sts : AdvancedStatefulSet) :
    ((mutateCloneSet o matchFn res).name = res.name ∧
     (mutateCloneSet o matchFn res).labels = res.labels ∧
     (mutateCloneSet o matchFn res).replicas = res.replicas ∧
     (mutateCloneSet o matchFn res).status = res.status ∧
     (mutateCloneSet o matchFn res).template.metadataLabels =
       res.template.metadataLabels ∧
     (mutateCloneSet o matchFn res).template.spec.otherFields =
       res.template.spec.otherFields ∧
     (mutateCloneSet o matchFn res).template.spec.containers.length =
       res.template.spec.containers.length) ∧
    (∀ (i : Nat) (c : Container), res.template.spec.containers[i]? = some c →
      (matchFn c.name = false →
        (mutateCloneSet o matchFn res).template.spec.containers[i]? = some c) ∧
      (matchFn c.name = true →
        (mutateCloneSet o matchFn res).template.spec.containers[i]? =
          some { c with resources := (updateContainerResources o c).resources })) ∧
    ((mutateAdvancedStatefulSet o matchFn sts).name = sts.name ∧
     (mutateAdvancedStatefulSet o matchFn sts).labels = sts.labels ∧
     (mutateAdvancedStatefulSet o matchFn sts).replicas = sts.replicas ∧
     (mutateAdvancedStatefulSet o matchFn sts).status = sts.status ∧
     (mutateAdvancedStatefulSet o matchFn sts).template.metadataLabels =
       sts.template.metadataLabels ∧
     (mutateAdvancedStatefulSet o matchFn sts).template.spec.otherFields =
       sts.template.spec.otherFields ∧
     (mutateAdvancedStatefulSet o matchFn sts).template.spec.containers.length =
       sts.template.spec.containers.length) ∧
    (∀ (i : Nat) (c : Container), sts.template.spec.containers[i]? = some c →
      (matchFn c.name = false →
        (mutateAdvancedStatefulSet o matchFn sts).template.spec.containers[i]? = some c) ∧
      (matchFn c.name = true →
        (mutateAdvancedStatefulSet o matchFn sts).template.spec.containers[i]? =
          some { c with resources := (updateContainerResources o c).resources })) := by
  refine ⟨⟨rfl, rfl, rfl, rfl, rfl, rfl, ?_⟩, ?_, ⟨rfl, rfl, rfl, rfl, rfl, rfl, ?_⟩, ?_⟩
  · simp [mutateCloneSet, applyResourcesToContainers]
  · intro i c hc
    constructor
    · intro hm
      show (applyResourcesToContainers o matchFn res.template.spec.containers)[i]? = some c
      rw [applyResourcesToContainers_getElem? o matchFn _ i c hc, hm]
      rfl
    · intro hm
      show (applyResourcesToContainers o matchFn res.template.spec.containers)[i]? = _
      rw [applyResourcesToContainers_getElem? o matchFn _ i c hc, hm]
      rfl
  · simp [mutateAdvancedStatefulSet, applyResourcesToContainers]
  · intro i c hc
    constructor
    · intro hm
      show (applyResourcesToContainers o matchFn sts.template.spec.containers)[i]? = some c
      rw [applyResourcesToContainers_getElem? o matchFn _ i c hc, hm]
      rfl
    · intro hm
      show (applyResourcesToContainers o matchFn sts.template.spec.containers)[i]? = _
      rw [applyResourcesToContainers_getElem? o matchFn _ i c hc, hm]
      rfl

theorem claim_C6_witness :
    (mutateCloneSet
        { selector := "", containerSelector := "other", all := false, local_ := false,
          dryRunStrategy := DryRunStrategy.none, limits := "cpu=200m", requests := "",
          resourceRequirements := ⟨[("cpu", "200m")], []⟩ }
        (fun _ => false)
        ⟨"cs", [("app", "demo")], some 3, ⟨[("app", "demo")],
          ⟨[⟨"nginx", ⟨[], []⟩, "img"⟩], "other-spec-fields"⟩⟩, "status"⟩).template.spec.containers[0]? =
      some ⟨"nginx", ⟨[], []⟩, "img"⟩ :=
  ((claim_C6
      { selector := "", containerSelector := "other", all := false, local_ := false,
        dryRunStrategy := DryRunStrategy.none, limits := "cpu=200m", requests := "",
        resourceRequirements := ⟨[("cpu", "200m")], []⟩ }
      (fun _ => false)
      ⟨"cs", [("app", "demo")], some 3, ⟨[("app", "demo")],
        ⟨[⟨"nginx", ⟨[], []⟩, "img"⟩], "other-spec-fields"⟩⟩, "status"⟩
      ⟨"sts", [], none, ⟨[], ⟨[], ""⟩⟩, ""⟩).2.1 0 ⟨"nginx", ⟨[], []⟩, "img"⟩ rfl).1 rfl

theorem SetupTTY_raw (o : StreamOptions) :
    (o.SetupTTY).1.raw = (o.stdin && o.tty && o.isTerminalIn) := by
  unfold StreamOptions.SetupTTY
  cases hs : o.stdin <;> cases ht : o.tty <;> cases hit : o.isTerminalIn <;>
    cases ho : o.out <;> simp [hs, ht, hit, ho]

theorem SetupTTY_errOut (o : StreamOptions) :
    (o.SetupTTY).2.errOut = o.errOut := by
  unfold StreamOptions.SetupTTY
  cases hs : o.stdin <;> cases ht : o.tty <;> cases hit : o.isTerminalIn <;>
    cases ho : o.out <;> simp [hs, ht, hit, ho]

theorem chooseContainerName_isSome (p : ExecOptions) (pod : Pod)
    (hne : pod.containers ≠ []) : ∃ cn, chooseContainerName p pod = some cn := by
  obtain ⟨c0, crest, hcons⟩ := List.exists_cons_of_ne_nil hne
  simp only [chooseContainerName]
  split
  · rw [hcons]
    exact ⟨c0.name, rfl⟩
  · exact ⟨_, rfl⟩

theorem chooseContainerName_working (p : ExecOptions) (pod : Pod) (w : String)
    (hlu : rlGet pod.hotUpgradeInfos p.sidecarSetContainer = some w)
    (hw : w ≠ "") : chooseContainerName p pod = some w := by
  have hlen : w.length ≠ 0 := fun h => hw ((string_length_eq_zero w).mp h)
  simp [chooseContainerName, hlu, hlen]

theorem chooseContainerName_dash_c (p : ExecOptions) (pod : Pod)
    (hlu : rlGet pod.hotUpgradeInfos p.sidecarSetContainer = none)
    (hc : p.containerName ≠ "") :
    chooseContainerName p pod = some p.containerName := by
  have hlen : p.containerName.length ≠ 0 :=
    fun h => hc ((string_length_eq_zero p.containerName).mp h)
  simp [chooseContainerName, hlu, hlen]

theorem chooseContainerName_first (p : ExecOptions) (pod : Pod)
    (hbase : rlGet pod.hotUpgradeInfos p.sidecarSetContainer = some "" ∨
      (rlGet pod.hotUpgradeInfos p.sidecarSetContainer = none ∧ p.containerName = "")) :
    chooseContainerName p pod = (pod.containers.head?).map Container.name := by
  rcases hbase with h | ⟨h, hc⟩
  · simp [chooseContainerName, h]
  · simp [chooseContainerName, h, hc]

theorem Run_ok_of (p : ExecOptions) (pod : Pod)
    (hphase : ¬(pod.phase = PodSucceeded ∨ pod.phase = PodFailed))
    (cn : String) (hcn : chooseContainerName p pod = some cn) :
    p.Run pod = .ok (buildExecCall p cn) := by
  unfold ExecOptions.Run ExecOptions.runAfterPhaseCheck
  rw [if_neg hphase, hcn]

theorem buildExecCall_container (p : ExecOptions) (cn : String) :
    (buildExecCall p cn).container = cn := rfl

theorem buildExecCall_sizeQueue (p : ExecOptions) (cn : String) :
    (buildExecCall p cn).hasSizeQueue = (p.stdin && p.tty && p.isTerminalIn) := by
  show (p.toStreamOptions.SetupTTY).1.raw = _
  exact SetupTTY_raw p.toStreamOptions

theorem buildExecCall_tty (p : ExecOptions) (cn : String) :
    (buildExecCall p cn).tty = (p.stdin && p.tty && p.isTerminalIn) := by
  show (p.toStreamOptions.SetupTTY).1.raw = _
  exact SetupTTY_raw p.toStreamOptions

theorem buildExecCall_errOut (p : ExecOptions) (cn : String) :
    (buildExecCall p cn).errOutStream =
      (if p.stdin && p.tty && p.isTerminalIn then none else p.errOut) := by
  show (if (p.toStreamOptions.SetupTTY).1.raw then none
        else (p.toStreamOptions.SetupTTY).2.errOut) = _
  rw [SetupTTY_raw, SetupTTY_errOut]

/-- C5: for every pod whose phase is Succeeded or Failed, `Run` of `exec`
returns the completed-pod error (so the remote executor is never invoked:
an `ExecCall` is produced only on the `.ok` path); for every other phase the
check passes and `Run` continues with the rest of the run. -/
theorem claim_C5 (p : ExecOptions) (pod : Pod) :
    (pod.phase = PodSucceeded ∨ pod.phase = PodFailed →
      p.Run pod = .error
        ("cannot exec into a container in a completed pod; current phase is " ++ pod.phase)) ∧
    (¬(pod.phase = PodSucceeded ∨ pod.phase = PodFailed) →
      p.Run pod = p.runAfterPhaseCheck pod) := by
  constructor
  · intro h
    unfold ExecOptions.Run
    rw [if_pos h]
  · intro h
    unfold ExecOptions.Run
    rw [if_neg h]

theorem claim_C5_witness :
    ExecOptions.Run
      { podName := "p", containerName := "", sidecarSetContainer := "", stdin := false,
        tty := false, inStream := none, out := some "stdout", errOut := some "stderr",
        isTerminalIn := false, overrideIn := "", overrideOut := "", resourceName := "",
        filenames := [], command := ["date"] }
      ⟨"p", "default", [⟨"main", ⟨[], []⟩, "img"⟩], [], PodSucceeded⟩ =
      .error ("cannot exec into a container in a completed pod; current phase is " ++
        PodSucceeded) :=
  (claim_C5 _ _).1 (Or.inl rfl)

/-- C8: `SetupTTY` sets `t.Raw` exactly when stdin is requested, a TTY is
requested and the input is a terminal; when stdin is not requested it nils
the input stream and forces TTY off; and in `Run` the terminal-size queue is
created and stderr is merged into stdout (`ErrOut` set to nil) exactly when
the terminal is raw. -/
theorem claim_C8 (o : StreamOptions) (p : ExecOptions) (pod : Pod)
    (hphase : ¬(pod.phase = PodSucceeded ∨ pod.phase = PodFailed))
    (hne : pod.containers ≠ []) :
    ((o.SetupTTY).1.raw = (o.stdin && o.tty && o.isTerminalIn)) ∧
    (o.stdin = false → (o.SetupTTY).2.inStream = none ∧ (o.SetupTTY).2.tty = false) ∧
    (∃ call, p.Run pod = .ok call ∧
      call.hasSizeQueue = (p.stdin && p.tty && p.isTerminalIn) ∧
      call.tty = (p.stdin && p.tty && p.isTerminalIn) ∧
      call.errOutStream = (if p.stdin && p.tty && p.isTerminalIn then none else p.errOut)) := by
  refine ⟨SetupTTY_raw o, ?_, ?_⟩
  · intro hs
    unfold StreamOptions.SetupTTY
    simp [hs]
  · obtain ⟨cn, hcn⟩ := chooseContainerName_isSome p pod hne
    exact ⟨buildExecCall p cn, Run_ok_of p pod hphase cn hcn,
      buildExecCall_sizeQueue p cn, buildExecCall_tty p cn, buildExecCall_errOut p cn⟩

theorem claim_C8_witness :
    let so : StreamOptions :=
      { podName := "p", containerName := "main", sidecarSetContainer := "",
        stdin := true, tty := true, inStream := some "stdin", out := some "stdout",
        errOut := some "stderr", isTerminalIn := true, overrideIn := "rawin",
        overrideOut := "rawout" }
    let p : ExecOptions :=
      { toStreamOptions := so, resourceName := "", filenames := [], command := ["bash"] }
    let pod : Pod := ⟨"p", "default", [⟨"main", ⟨[], []⟩, "img"⟩], [], "Running"⟩
    ((so.SetupTTY).1.raw = (so.stdin && so.tty && so.isTerminalIn)) ∧
    (so.stdin = false → (so.SetupTTY).2.inStream = none ∧ (so.SetupTTY).2.tty = false) ∧
    (∃ call, p.Run pod = .ok call ∧
      call.hasSizeQueue = (p.stdin && p.tty && p.isTerminalIn) ∧
      call.tty = (p.stdin && p.tty && p.isTerminalIn) ∧
      call.errOutStream = (if p.stdin && p.tty && p.isTerminalIn then none else p.errOut)) := by
  intro so p pod
  exact claim_C8 so p pod (by decide) (by decide)

/-- C4 (amended): in exec's `Run` a candidate container name is computed — the
hot-upgrade working container when the annotation map has an entry for the
`-S` name, otherwise the `-c` name — and the candidate goes into the exec
request only when it is non-empty; when the candidate is empty (in
particular when the annotation entry is the empty string, or when there is
no entry and `-c` is empty) the name of the first container of the pod is
used instead. -/
theorem claim_C4_amended (p : ExecOptions) (pod : Pod)
    (hphase : ¬(pod.phase = PodSucceeded ∨ pod.phase = PodFailed))
    (hne : pod.containers ≠ []) :
    ∃ call, p.Run pod = .ok call ∧
      (∀ w, rlGet pod.hotUpgradeInfos p.sidecarSetContainer = some w → w ≠ "" →
        call.container = w) ∧
      (rlGet pod.hotUpgradeInfos p.sidecarSetContainer = none → p.containerName ≠ "" →
        call.container = p.containerName) ∧
      (rlGet pod.hotUpgradeInfos p.sidecarSetContainer = some "" ∨
          (rlGet pod.hotUpgradeInfos p.sidecarSetContainer = none ∧ p.containerName = "") →
        ∃ c0 crest, pod.containers = c0 :: crest ∧ call.container = c0.name) := by
  obtain ⟨cn, hcn⟩ := chooseContainerName_isSome p pod hne
  refine ⟨buildExecCall p cn, Run_ok_of p pod hphase cn hcn, ?_, ?_, ?_⟩
  · intro w hlu hw
    have h2 := chooseContainerName_working p pod w hlu hw
    rw [hcn] at h2
    rw [buildExecCall_container]
    exact Option.some.inj h2
  · intro hlu hc
    have h2 := chooseContainerName_dash_c p pod hlu hc
    rw [hcn] at h2
    rw [buildExecCall_container]
    exact Option.some.inj h2
  · intro hbase
    obtain ⟨c0, crest, hcons⟩ := List.exists_cons_of_ne_nil hne
    have h2 := chooseContainerName_first p pod hbase
    rw [hcn, hcons] at h2
    simp at h2
    refine ⟨c0, crest, hcons, ?_⟩
    rw [buildExecCall_container]
    exact h2

theorem claim_C4_witness :
    let p : ExecOptions :=
      { podName := "p", containerName := "fallback", sidecarSetContainer := "side",
        stdin := false, tty := false, inStream := none, out := some "stdout",
        errOut := some "stderr", isTerminalIn := false, overrideIn := "",
        overrideOut := "", resourceName := "", filenames := [], command := ["date"] }
    let pod : Pod := ⟨"p", "default", [⟨"main", ⟨[], []⟩, "img"⟩],
      [("side", "working-v2")], "Running"⟩
    ∃ call, p.Run pod = .ok call ∧
      (∀ w, rlGet pod.hotUpgradeInfos p.sidecarSetContainer = some w → w ≠ "" →
        call.container = w) ∧
      (rlGet pod.hotUpgradeInfos p.sidecarSetContainer = none → p.containerName ≠ "" →
        call.container = p.containerName) ∧
      (rlGet pod.hotUpgradeInfos p.sidecarSetContainer = some "" ∨
          (rlGet pod.hotUpgradeInfos p.sidecarSetContainer = none ∧ p.containerName = "") →
        ∃ c0 crest, pod.containers = c0 :: crest ∧ call.container = c0.name) := by
  intro p pod
  exact claim_C4_amended p pod (by decide) (by decide)

/-- C4 counterexample: when the hot-upgrade annotations map the `-S` sidecar
name to the EMPTY string, the code does not place that mapped working
container (nor the non-empty `-c` name, which the claimed precedence says is
only reached when the map has no entry) into the request: it falls through
to the first container of the pod.  So the claim's stated precedence fails
at this input. -/
theorem claim_C4_counterexample :
    let p : ExecOptions :=
      { podName := "p", containerName := "mycont", sidecarSetContainer := "side",
        stdin := false, tty := false, inStream := none, out := some "stdout",
        errOut := some "stderr", isTerminalIn := false, overrideIn := "",
        overrideOut := "", resourceName := "", filenames := [], command := ["date"] }
    let pod : Pod := ⟨"p", "default", [⟨"main", ⟨[], []⟩, "img"⟩], [("side", "")], "Running"⟩
    rlGet pod.hotUpgradeInfos p.sidecarSetContainer = some "" ∧
    ∃ call, p.Run pod = .ok call ∧ call.container = "main" ∧
      call.container ≠ "" ∧ call.container ≠ p.containerName := by
  intro p pod
  exact ⟨rfl, buildExecCall p "main",
    Run_ok_of p pod (by decide) "main" (by decide), rfl, by decide, by decide⟩

theorem cloneSetBranch_actions (o : SetResourcesOptions) (matchFn : String → Bool)
    (env : SetEnv) (info : Info) :
    ∀ a ∈ (cloneSetBranch o matchFn env info).2,
      a = RunAction.get info.ns info.name ∨
      (∃ w, a = RunAction.replace info.ns info.name w) ∨
      (∃ w, a = RunAction.print info.ns info.name w) := by
  intro a ha
  unfold cloneSetBranch at ha
  cases hg : env.getCloneSet with
  | error e =>
    rw [hg] at ha
    simp at ha
    exact Or.inl ha
  | ok res =>
    rw [hg] at ha
    by_cases he : (selectContainers matchFn res.template.spec.containers).length ≠ 0 <;>
      cases hl : o.local_ <;>
      cases hr : env.replaceResult <;>
      cases hp : env.printResult <;>
      simp [he, hl, hr, hp] at ha <;>
      aesop

theorem advancedStatefulSetBranch_actions (o : SetResourcesOptions)
    (matchFn : String → Bool) (env : SetEnv) (info : Info) :
    ∀ a ∈ (advancedStatefulSetBranch o matchFn env info).2,
      a = RunAction.get info.ns info.name ∨
      (∃ w, a = RunAction.replace info.ns info.name w) ∨
      (∃ w, a = RunAction.print info.ns info.name w) := by
  intro a ha
  unfold advancedStatefulSetBranch at ha
  cases hg : env.getAdvancedStatefulSet with
  | error e =>
    rw [hg] at ha
    simp at ha
    exact Or.inl ha
  | ok res =>
    rw [hg] at ha
    by_cases he : (selectContainers matchFn res.template.spec.containers).length ≠ 0 <;>
      cases hl : o.local_ <;>
      cases hr : env.replaceResult <;>
      cases hp : env.printResult <;>
      simp [he, hl, hr, hp] at ha <;>
      aesop

/-- C9: when the resolved target list is empty `Run` returns nil with no
remote interaction; when the first target is a CloneSet or kruise Advanced
StatefulSet every remote or printer interaction of `Run` targets that first
object's coordinates, so further resolved targets are never fetched, updated
or printed in those branches; and in the plain non-local success scenario
the trace is exactly fetch, replace and print of the first object, replacing
and printing the mutated fetched object. -/
theorem claim_C9 (o : SetResourcesOptions) (matchFn : String → Bool) (env : SetEnv) :
    (o.Run matchFn env [] = (.ok (), [])) ∧
    (∀ (info : Info) (rest : List Info),
      ((∃ c, info.object = ObjKind.cloneSet c) ∨
        (∃ s, info.object = ObjKind.advancedStatefulSet s)) →
      ∀ a ∈ (o.Run matchFn env (info :: rest)).2,
        a = RunAction.get info.ns info.name ∨
        (∃ w, a = RunAction.replace info.ns info.name w) ∨
        (∃ w, a = RunAction.print info.ns info.name w)) ∧
    (∀ (info : Info) (rest : List Info) (c res : CloneSet),
      info.object = ObjKind.cloneSet c → env.getCloneSet = .ok res →
      selectContainers matchFn res.template.spec.containers ≠ [] →
      o.local_ = false → env.replaceResult = .ok () → env.printResult = .ok () →
      o.Run matchFn env (info :: rest) =
        (.ok (), [RunAction.get info.ns info.name,
          RunAction.replace info.ns info.name
            (WorkloadObj.clone (mutateCloneSet o matchFn res)),
          RunAction.print info.ns info.name
            (WorkloadObj.clone (mutateCloneSet o matchFn res))])) := by
  refine ⟨rfl, ?_, ?_⟩
  · intro info rest hk a ha
    rcases hk with ⟨c, hc⟩ | ⟨s, hs⟩
    · simp only [SetResourcesOptions.Run, hc] at ha
      exact cloneSetBranch_actions o matchFn env info a ha
    · simp only [SetResourcesOptions.Run, hs] at ha
      exact advancedStatefulSetBranch_actions o matchFn env info a ha
  · intro info rest c res hc hg hne hl hr hp
    have he : (selectContainers matchFn res.template.spec.containers).length ≠ 0 :=
      fun h => hne (List.length_eq_zero.mp h)
    simp only [SetResourcesOptions.Run, hc]
    unfold cloneSetBranch
    rw [hg]
    simp [he, hl, hr, hp]

theorem claim_C9_witness :
    let o : SetResourcesOptions :=
      { selector := "", containerSelector := "*", all := false, local_ := false,
        dryRunStrategy := DryRunStrategy.none, limits := "cpu=200m", requests := "",
        resourceRequirements := ⟨[("cpu", "200m")], []⟩ }
    let res : CloneSet :=
      ⟨"cs", [], some 2, ⟨[], ⟨[⟨"nginx", ⟨[], []⟩, "img"⟩], "of"⟩⟩, "st"⟩
    let env : SetEnv :=
      { getCloneSet := .ok res, getAdvancedStatefulSet := .error "unused",
        replaceResult := .ok (), printResult := .ok (), defaultBranch := (.ok (), []) }
    let info : Info := ⟨"default", "cs", ObjKind.cloneSet res⟩
    o.Run (fun _ => true) env [info] =
      (.ok (), [RunAction.get "default" "cs",
        RunAction.replace "default" "cs"
          (WorkloadObj.clone (mutateCloneSet o (fun _ => true) res)),
        RunAction.print "default" "cs"
          (WorkloadObj.clone (mutateCloneSet o (fun _ => true) res))]) := by
  intro o res env info
  exact (claim_C9 o (fun _ => true) env).2.2 info [] res res rfl rfl (by decide) rfl rfl rfl

/-- C10: in the CloneSet and Advanced StatefulSet branches of `Run`, when the
container selector matches no container of the fetched object, `Run` returns
a nil error with only the initial fetch in its trace: no update is sent, and
nothing is printed — the accumulated unable-to-find-container error is
discarded by the early not-transformed return, so the caller observes
success. -/
theorem claim_C10 (o : SetResourcesOptions) (matchFn : String → Bool) (env : SetEnv)
    (info : Info) (rest : List Info) :
    (∀ (c res : CloneSet), info.object = ObjKind.cloneSet c →
      env.getCloneSet = .ok res →
      (∀ ct ∈ res.template.spec.containers, matchFn ct.name = false) →
      o.Run matchFn env (info :: rest) =
        (.ok (), [RunAction.get info.ns info.name])) ∧
    (∀ (s res : AdvancedStatefulSet), info.object = ObjKind.advancedStatefulSet s →
      env.getAdvancedStatefulSet = .ok res →
      (∀ ct ∈ res.template.spec.containers, matchFn ct.name = false) →
      o.Run matchFn env (info :: rest) =
        (.ok (), [RunAction.get info.ns info.name])) := by
  constructor
  · intro c res hc hg hnone
    have hsel : selectContainers matchFn res.template.spec.containers = [] := by
      unfold selectContainers
      exact List.filter_eq_nil_iff.mpr (fun ct hct => by simp [hnone ct hct])
    simp only [SetResourcesOptions.Run, hc]
    unfold cloneSetBranch
    rw [hg]
    simp [hsel]
  · intro s res hs hg hnone
    have hsel : selectContainers matchFn res.template.spec.containers = [] := by
      unfold selectContainers
      exact List.filter_eq_nil_iff.mpr (fun ct hct => by simp [hnone ct hct])
    simp only [SetResourcesOptions.Run, hs]
    unfold advancedStatefulSetBranch
    rw [hg]
    simp [hsel]

theorem claim_C10_witness :
    let o : SetResourcesOptions :=
      { selector := "", containerSelector := "missing", all := false, local_ := false,
        dryRunStrategy := DryRunStrategy.none, limits := "cpu=200m", requests := "",
        resourceRequirements := ⟨[("cpu", "200m")], []⟩ }
    let res : CloneSet :=
      ⟨"cs", [], some 2, ⟨[], ⟨[⟨"nginx", ⟨[], []⟩, "img"⟩], "of"⟩⟩, "st"⟩
    let env : SetEnv :=
      { getCloneSet := .ok res, getAdvancedStatefulSet := .error "unused",
        replaceResult := .ok (), printResult := .ok (), defaultBranch := (.ok (), []) }
    let info : Info := ⟨"default", "cs", ObjKind.cloneSet res⟩
    o.Run (fun _ => false) env [info] = (.ok (), [RunAction.get "default" "cs"]) := by
  intro o res env info
  exact (claim_C10 o (fun _ => false) env info []).1 res res rfl rfl
    (fun ct _ => rfl)

theorem claim_C7_witness :
    ExecOptions.Validate
      { podName := "p", containerName := "", sidecarSetContainer := "", stdin := false,
        tty := false, inStream := none, out := some "stdout", errOut := some "stderr",
        isTerminalIn := false, overrideIn := "", overrideOut := "", resourceName := "",
        filenames := [], command := ["date"] } = .ok () :=
  (claim_C7
    { podName := "p", containerName := "", sidecarSetContainer := "", stdin := false,
      tty := false, inStream := none, out := some "stdout", errOut := some "stderr",
      isTerminalIn := false, overrideIn := "", overrideOut := "", resourceName := "",
      filenames := [], command := ["date"] }).2.mpr (by decide)
